import Mathlib

/-!
Verification development for the CBRE report-archiving repository
(web_scrapping_agent).  The Python sources are shallowly embedded:

* Python dictionaries (the three JSON logs, the scraped url-to-title
  mapping, the title-to-url map) become insertion-ordered association
  lists over String with upsert / pop operations mirroring dict
  assignment and dict.pop.
* The pure decision logic of the scraper (keyword filter, the strict and
  the loose date regexes, the keep rule, the early-stop rule) is
  translated function by function from scrapers/web_scraper.py
  (scrapers/cbre_scraper.py contains a textually identical copy of
  extract_links_from_pages).
* The browser, the LLM title parser and the downloader are external
  collaborators: they enter the model as explicit page data and as
  function parameters, exactly at the call sites where the orchestrator
  in tools/cbre_tool.py consumes their results.
-/

/-! ## Python dict model: insertion-ordered association lists -/

/-- Python dict lookup: the value stored under a key, if present. -/
def dlookup : List (String × String) → String → Option String
  | [], _ => none
  | (k, v) :: rest, key => if k = key then some v else dlookup rest key

/-- Python `key in dict`. -/
def dmem (d : List (String × String)) (k : String) : Bool :=
  (dlookup d k).isSome

/-- Python dict assignment `d[k] = v`: update in place if the key exists
(keeping its position), otherwise append at the end. -/
def dinsert : List (String × String) → String → String → List (String × String)
  | [], k, v => [(k, v)]
  | (k', v') :: rest, k, v =>
    if k' = k then (k, v) :: rest else (k', v') :: dinsert rest k v

/-- Python `d.pop(k)`: remove the (first) binding of `k`. -/
def dpop : List (String × String) → String → List (String × String)
  | [], _ => []
  | (k', v') :: rest, k => if k' = k then rest else (k', v') :: dpop rest k

/-- Well-formedness of a Python dict image: keys are distinct.  Every
dictionary that Python ever materialises satisfies this. -/
def wfb : List (String × String) → Bool
  | [] => true
  | (k, _) :: rest => !dmem rest k && wfb rest

theorem dlookup_dinsert (d : List (String × String)) (k v u : String) :
    dlookup (dinsert d k v) u = if k = u then some v else dlookup d u := by
  induction d with
  | nil => simp [dinsert, dlookup]
  | cons hd tl ih =>
    obtain ⟨k', v'⟩ := hd
    by_cases hk : k' = k
    · subst hk
      by_cases hu : k' = u
      · subst hu; simp [dinsert, dlookup]
      · simp [dinsert, dlookup, hu]
    · by_cases hu : k' = u
      · have hku : ¬ k = u := fun h => hk (hu.trans h.symm)
        subst hu
        simp [dinsert, dlookup, hk, hku, ih]
      · simp [dinsert, dlookup, hk, hu, ih]

theorem dmem_dinsert (d : List (String × String)) (k v u : String) :
    dmem (dinsert d k v) u = (decide (u = k) || dmem d u) := by
  simp only [dmem, dlookup_dinsert]
  by_cases h : k = u
  · subst h; simp
  · have h' : ¬ u = k := fun hh => h hh.symm
    simp [if_neg h, h']

theorem dmem_dinsert_self (d : List (String × String)) (k v : String) :
    dmem (dinsert d k v) k = true := by
  simp [dmem_dinsert]

theorem dmem_dinsert_ne (d : List (String × String)) (k v u : String) (h : u ≠ k) :
    dmem (dinsert d k v) u = dmem d u := by
  simp [dmem_dinsert, h]

theorem dlookup_dpop_ne (d : List (String × String)) (k u : String) (h : u ≠ k) :
    dlookup (dpop d k) u = dlookup d u := by
  induction d with
  | nil => simp [dpop]
  | cons hd tl ih =>
    obtain ⟨k', v'⟩ := hd
    by_cases hk : k' = k
    · subst hk
      simp [dpop, dlookup, if_neg (fun hh : k' = u => h hh.symm)]
    · simp [dpop, if_neg hk, dlookup, ih]

theorem dmem_dpop_self (d : List (String × String)) (k : String)
    (hwf : wfb d = true) : dmem (dpop d k) k = false := by
  induction d with
  | nil => simp [dpop, dmem, dlookup]
  | cons hd tl ih =>
    obtain ⟨k', v'⟩ := hd
    simp only [wfb, Bool.and_eq_true, Bool.not_eq_true'] at hwf
    by_cases hk : k' = k
    · subst hk
      simpa [dpop] using hwf.1
    · simp only [dpop, if_neg hk, dmem, dlookup, if_neg hk]
      exact ih hwf.2

theorem dmem_dpop_le (d : List (String × String)) (k u : String)
    (h : dmem (dpop d k) u = true) : dmem d u = true := by
  induction d with
  | nil => simpa [dpop] using h
  | cons hd tl ih =>
    obtain ⟨k', v'⟩ := hd
    by_cases hk : k' = k
    · subst hk
      simp only [dpop, if_pos rfl] at h
      simp only [dmem, dlookup]
      by_cases hu : k' = u
      · simp [hu]
      · simpa [dmem, if_neg hu] using h
    · simp only [dpop, if_neg hk] at h
      simp only [dmem, dlookup]
      by_cases hu : k' = u
      · simp [hu]
      · simp only [dmem, dlookup, if_neg hu] at h
        simpa [dmem, if_neg hu] using ih h

theorem wfb_dinsert (d : List (String × String)) (k v : String)
    (hwf : wfb d = true) : wfb (dinsert d k v) = true := by
  induction d with
  | nil => simp [dinsert, wfb, dmem, dlookup]
  | cons hd tl ih =>
    obtain ⟨k', v'⟩ := hd
    simp only [wfb, Bool.and_eq_true, Bool.not_eq_true'] at hwf
    by_cases hk : k' = k
    · subst hk
      simp only [dinsert, if_pos rfl, wfb, Bool.and_eq_true, Bool.not_eq_true']
      exact hwf
    · simp only [dinsert, if_neg hk, wfb, Bool.and_eq_true, Bool.not_eq_true']
      refine ⟨?_, ih hwf.2⟩
      rw [dmem_dinsert_ne _ _ _ _ hk]
      exact hwf.1

theorem wfb_dpop (d : List (String × String)) (k : String)
    (hwf : wfb d = true) : wfb (dpop d k) = true := by
  induction d with
  | nil => simp [dpop, wfb]
  | cons hd tl ih =>
    obtain ⟨k', v'⟩ := hd
    simp only [wfb, Bool.and_eq_true, Bool.not_eq_true'] at hwf
    by_cases hk : k' = k
    · subst hk
      simpa [dpop] using hwf.2
    · simp only [dpop, if_neg hk, wfb, Bool.and_eq_true, Bool.not_eq_true']
      refine ⟨?_, ih hwf.2⟩
      by_cases hmem : dmem (dpop tl k) k' = true
      · exact absurd (dmem_dpop_le tl k k' hmem) (by simp [hwf.1])
      · simpa using hmem

/-! ## Log store (utils/file_utils.py and scripts/log_manager.py)

The three JSON log files are modelled by their parsed dictionaries; every
update in the source is a load-modify-rewrite of a whole file by the
single writer, so threading the dictionaries is observably the same as
threading the files. -/

/-- State of a JSON log file on disk, as far as the loaders distinguish
it: absent, present but not valid JSON, or a valid JSON object of
strings. -/
inductive LogFile where
  | missing : LogFile
  | invalid : LogFile
  | valid : List (String × String) → LogFile
deriving DecidableEq

/-- `load_download_log` from utils/file_utils.py: returns the key set of
the success log.  Unlike every other loader in the repository it calls
json.load without a try block, so a present-but-corrupt file raises
json.JSONDecodeError; the raised exception is modelled by `Except.error`. -/
def load_download_log : LogFile → Except String (List String)
  | LogFile.missing => Except.ok []
  | LogFile.invalid => Except.error "JSONDecodeError"
  | LogFile.valid d => Except.ok (d.map Prod.fst)

/-- `load_failed_log` from utils/file_utils.py: a missing or corrupt file
yields the empty dict (json.JSONDecodeError is caught). -/
def load_failed_log : LogFile → List (String × String)
  | LogFile.missing => []
  | LogFile.invalid => []
  | LogFile.valid d => d

/-- `load_irrelevant_log` from utils/file_utils.py: returns the key set;
a missing or corrupt file yields the empty set. -/
def load_irrelevant_log : LogFile → List String
  | LogFile.missing => []
  | LogFile.invalid => []
  | LogFile.valid d => d.map Prod.fst

/-- `_load_log` from scripts/log_manager.py: a missing or corrupt file
yields the empty dict. -/
def log_manager_load_log : LogFile → List (String × String)
  | LogFile.missing => []
  | LogFile.invalid => []
  | LogFile.valid d => d

/-- The in-memory image of the three logs (success, failed, irrelevant),
keyed by report url. -/
structure LogState where
  success : List (String × String)
  failed : List (String × String)
  irrelevant : List (String × String)
deriving DecidableEq

/-- All three logs have distinct keys, as every Python dict does. -/
def stateWfb (s : LogState) : Bool :=
  wfb s.success && wfb s.failed && wfb s.irrelevant

/-- The url is a key of at least one of the three logs. -/
def inAnyLog (s : LogState) (u : String) : Bool :=
  dmem s.success u || dmem s.failed u || dmem s.irrelevant u

/-- Boolean check that every url is a key of at most one of the three
logs (it suffices to check the keys that occur). -/
def pairwiseDisjointb (s : LogState) : Bool :=
  (s.success.map Prod.fst).all (fun k => !dmem s.failed k && !dmem s.irrelevant k) &&
  (s.failed.map Prod.fst).all (fun k => !dmem s.irrelevant k)

/-- `promote_to_success` from scripts/log_manager.py, on the loaded
dictionaries.  The returned Bool is true when the two files are written;
false models the early return after the visible "URL not found in the
failed log" error message, which writes nothing. -/
def promote_to_success (failed_log success_log : List (String × String))
    (url_to_promote new_filename : String) :
    List (String × String) × List (String × String) × Bool :=
  if dmem failed_log url_to_promote then
    (dpop failed_log url_to_promote,
     dinsert success_log url_to_promote new_filename, true)
  else
    (failed_log, success_log, false)

/-- `mark_as_irrelevant` from scripts/log_manager.py, on the loaded
dictionaries.  The returned Bool is true when the two files are written;
false models the early return after the visible error message. -/
def mark_as_irrelevant (failed_log irrelevant_log : List (String × String))
    (url_to_mark : String) :
    List (String × String) × List (String × String) × Bool :=
  if dmem failed_log url_to_mark then
    (dpop failed_log url_to_mark,
     dinsert irrelevant_log url_to_mark "Marked as irrelevant by user.", true)
  else
    (failed_log, irrelevant_log, false)

/-! ## Page crawler decision logic (scrapers/web_scraper.py lines 171-283)

The browser is external: a crawl is modelled by the sequence of pages the
site would serve, each page a list of (href, link text) pairs.  The two
regular expressions of the source are embedded as explicit leftmost-match
scanners with the same alternation order and backtracking behaviour. -/

/-- ASCII lowering, modelling str.lower() on the titles involved. -/
def pyLower (s : String) : String := String.mk (s.data.map Char.toLower)

/-- ASCII raising, modelling str.upper(). -/
def pyUpper (s : String) : String := String.mk (s.data.map Char.toUpper)

/-- str.replace applied with a one-character needle and empty
replacement, as in .replace(with the dash, empty). -/
def stripDashes (s : String) : String := String.mk (s.data.filter (fun c => c ≠ '-'))

/-- Python truthiness of an optional integer: None and 0 are falsy. -/
def pyTruthyNat : Option Nat → Bool
  | none => false
  | some n => n != 0

/-- Python truthiness of an optional string: None and the empty string
are falsy. -/
def pyTruthyStr : Option String → Bool
  | none => false
  | some s => s != ""

/-- The characters matched by the whitespace class of the re module
(ASCII range). -/
def isSpaceCh (c : Char) : Bool :=
  c = ' ' || c = '\t' || c = '\n' || c = '\r' || c = '\x0b' || c = '\x0c'

/-- First alternation group shared by both date patterns: a quarter
token q1-q4 or a half-year token h1-h2, at the head of the character
list.  Returns the matched token and the remaining characters. -/
def matchStrictAlt : List Char → Option (String × List Char)
  | 'q' :: d :: rest =>
    if d = '1' || d = '2' || d = '3' || d = '4' then
      some (String.mk ['q', d], rest)
    else none
  | 'h' :: d :: rest =>
    if d = '1' || d = '2' then some (String.mk ['h', d], rest) else none
  | _ => none

/-- Exactly four leading digit characters, read as a year. -/
def takeDigits4 : List Char → Option Nat
  | a :: b :: c :: d :: _ =>
    if a.isDigit && b.isDigit && c.isDigit && d.isDigit then
      some ((((a.toNat - 48) * 10 + (b.toNat - 48)) * 10 +
             (c.toNat - 48)) * 10 + (d.toNat - 48))
    else none
  | _ => none

/-- After a period token: optional whitespace then a four-digit year,
completing one regex match attempt. -/
def matchDateTail (p : String) (rest : List Char) : Option (String × Nat) :=
  match takeDigits4 (rest.dropWhile isSpaceCh) with
  | some y => some (p, y)
  | none => none

/-- One match attempt of the strict pattern at the current position. -/
def matchStrictAt (cs : List Char) : Option (String × Nat) :=
  match matchStrictAlt cs with
  | some (p, r) => matchDateTail p r
  | none => none

/-- re.search with the strict pattern of the keep rule (a quarter or
half token, optional whitespace, four digits): leftmost match. -/
def searchStrict : List Char → Option (String × Nat)
  | [] => none
  | c :: rest =>
    match matchStrictAt (c :: rest) with
    | some res => some res
    | none => searchStrict rest

/-- Literal prefix: the remaining characters after the literal, if the
list starts with it. -/
def dropLit : List Char → List Char → Option (List Char)
  | [], cs => some cs
  | _ :: _, [] => none
  | l :: ls, c :: cs => if c = l then dropLit ls cs else none

/-- The ordered alternatives of the looser early-stop pattern at one
position, in the alternation order of the source pattern: q1-q4 or
h1-h2, then the literal year-end, ye, full-year tokens. -/
def looseCandidates (cs : List Char) : List (String × List Char) :=
  (match matchStrictAlt cs with
   | some pr => [pr]
   | none => []) ++
  (match dropLit "year-end".data cs with
   | some r => [("year-end", r)]
   | none => []) ++
  (match dropLit "ye".data cs with
   | some r => [("ye", r)]
   | none => []) ++
  (match dropLit "full-year".data cs with
   | some r => [("full-year", r)]
   | none => [])

/-- Backtracking over the alternatives at one position: the first
alternative whose tail (whitespace then four digits) also matches wins,
as in the re module. -/
def firstDateTail : List (String × List Char) → Option (String × Nat)
  | [] => none
  | (p, r) :: more =>
    match matchDateTail p r with
    | some res => some res
    | none => firstDateTail more

/-- re.search with the looser early-stop pattern: leftmost position at
which some alternative together with its tail matches. -/
def searchLoose : List Char → Option (String × Nat)
  | [] => none
  | c :: rest =>
    match firstDateTail (looseCandidates (c :: rest)) with
    | some res => some res
    | none => searchLoose rest

/-- The period_to_value dictionary of extract_links_from_pages together
with its .get default of 0 for absent keys. -/
def period_to_value (p : String) : Nat :=
  if p = "Q1" then 1
  else if p = "Q2" then 2
  else if p = "H1" then 2
  else if p = "Q3" then 3
  else if p = "Q4" then 4
  else if p = "H2" then 4
  else if p = "YEAR-END" then 4
  else if p = "YE" then 4
  else if p = "FULL-YEAR" then 4
  else if p = "YEAREND" then 4
  else if p = "year-end" then 4
  else if p = "yearend" then 4
  else 0

/-- The scrape configuration dict built in tools/cbre_tool.py; the three
selector strings only address the browser and carry no logic. -/
structure ScrapeConfig where
  content_container_selector : String
  link_selector : String
  next_page_selector : String
  search_terms : List String
  enable_early_stopping : Bool
  target_year : Option Nat
  target_period : Option String

/-- target_value as computed before the pagination loop: set only when
target_year is truthy, combining year and the looked-up period value
(absent or None target_period contributes the .get default 0). -/
def target_value_of (cfg : ScrapeConfig) : Option Nat :=
  match cfg.target_year with
  | none => none
  | some y =>
    if y ≠ 0 then
      some (y * 4 + (match cfg.target_period with
                     | some p => period_to_value p
                     | none => 0))
    else none

/-- The keep-vs-skip decision for one link text (already lowered), from
the body of the link loop: parse the strict pattern, then keep when no
target year is set, or when the parsed year is truthy and equals the
target year and (no target period, or the parsed period equals the
target, or the half-year compatibility rule applies). -/
def keep_decision (target_year : Option Nat) (target_period : Option String)
    (link_text_lower : String) : Bool :=
  let parsed := searchStrict link_text_lower.data
  let report_year : Option Nat := parsed.map (fun pr => pr.2)
  let report_period : Option String := parsed.map (fun pr => pyUpper pr.1)
  if !pyTruthyNat target_year then true
  else if pyTruthyNat report_year && report_year == target_year then
    if !pyTruthyStr target_period then true
    else
      match report_period with
      | none => false
      | some rp =>
        let tp := target_period.getD ""
        if rp == tp then true
        else if (tp == "Q1" || tp == "Q2") && rp == "H1" then true
        else if (tp == "Q3" || tp == "Q4") && rp == "H2" then true
        else false
  else false

/-- The comparable integer the early-stop branch computes for a link
text: year times 4 plus the period value of the uppercased,
dash-stripped loose-pattern token. -/
def found_value (link_text_lower : String) : Option Nat :=
  match searchLoose link_text_lower.data with
  | none => none
  | some (rpRaw, report_year) =>
    some (report_year * 4 + period_to_value (stripDashes (pyUpper rpRaw)))

/-- The early-stop test for one link text (already lowered): only when
early stopping is enabled and a target year is truthy; with a truthy
target period and target value the full values are compared, otherwise
bare years. -/
def early_stop_check (cfg : ScrapeConfig) (link_text_lower : String) : Bool :=
  if cfg.enable_early_stopping && pyTruthyNat cfg.target_year then
    match searchLoose link_text_lower.data with
    | none => false
    | some (rpRaw, report_year) =>
      let report_period := stripDashes (pyUpper rpRaw)
      let tv := target_value_of cfg
      if pyTruthyStr cfg.target_period && pyTruthyNat tv then
        decide (report_year * 4 + period_to_value report_period < tv.getD 0)
      else
        decide (report_year < cfg.target_year.getD 0)
  else false

/-- Substring test on character lists, for the keyword filter. -/
def chListStartsWith : List Char → List Char → Bool
  | [], _ => true
  | _ :: _, [] => false
  | p :: ps, c :: cs => p = c && chListStartsWith ps cs

/-- Python `sub in s` on character lists. -/
def isSubstring (pat : List Char) : List Char → Bool
  | [] => chListStartsWith pat []
  | c :: cs => chListStartsWith pat (c :: cs) || isSubstring pat cs

/-- One iteration of the link loop: keyword filter, href validity and
dedup guard, the keep decision, then the early-stop test.  Returns the
updated found_reports and the should_stop_scraping flag contribution. -/
def processLink (cfg : ScrapeConfig) (found : List (String × String))
    (href link_text_raw : String) : List (String × String) × Bool :=
  let link_text_lower := pyLower link_text_raw
  if cfg.search_terms.all
      (fun kw => isSubstring (pyLower kw).data link_text_lower.data) then
    if href != "" && !dmem found href then
      let keep_report :=
        keep_decision cfg.target_year cfg.target_period link_text_lower
      let found' :=
        if keep_report then dinsert found href link_text_raw else found
      (found', early_stop_check cfg link_text_lower)
    else (found, false)
  else (found, false)

/-- The inner for-loop over the links of one page.  Besides the updated
found_reports and the stop flag it returns the texts of the links the
loop actually examined, in order; the break on the stop flag leaves the
remaining links unexamined. -/
def processLinks (cfg : ScrapeConfig) :
    List (String × String) → List (String × String) →
    List (String × String) × Bool × List String
  | found, [] => (found, false, [])
  | found, (href, text) :: rest =>
    let r := processLink cfg found href text
    if r.2 then (r.1, true, [text])
    else
      let t := processLinks cfg r.1 rest
      (t.1, t.2.1, text :: t.2.2)

/-- Observable outcome of a crawl: the url-to-title mapping returned,
the link texts examined, and the number of result pages visited. -/
structure ScrapeTrace where
  found_reports : List (String × String)
  examined : List String
  pages_visited : Nat
deriving DecidableEq

/-- The pagination loop of extract_links_from_pages over the remaining
pages: process the current page, stop both loops on the stop flag,
otherwise follow the next-page control while one exists. -/
def scrapeGo (cfg : ScrapeConfig) :
    List (String × String) → List (List (String × String)) → ScrapeTrace
  | found, [] => ⟨found, [], 0⟩
  | found, page :: rest =>
    let r := processLinks cfg found page
    if r.2.1 then ⟨r.1, r.2.2, 1⟩
    else
      let t := scrapeGo cfg r.1 rest
      ⟨t.found_reports, r.2.2 ++ t.examined, t.pages_visited + 1⟩

/-- extract_links_from_pages of scrapers/web_scraper.py (and its
identical copy in scrapers/cbre_scraper.py), starting from an empty
found_reports dict on the first page. -/
def extract_links_from_pages (cfg : ScrapeConfig)
    (pages : List (List (String × String))) : ScrapeTrace :=
  scrapeGo cfg [] pages

/-! ## Download/Organize step (tools/download_tools.py lines 112-189)

The browser interaction (navigation, clicking, the 30-tick poll) is
external; the model receives whether a staged PDF appeared and, if so,
its downloaded filename, and embeds the classification and file-move
logic that follows.  File moves are recorded as the destination path. -/

/-- One record of the Title Interpreter output (the ReportInfo schema):
all four fields are strings and any may be empty. -/
structure ParsedRecord where
  original_title : String
  market_name : String
  year : String
  period : String
deriving DecidableEq

/-- Python str.strip(): whitespace removed from both ends. -/
def pyStrip (s : String) : String :=
  String.mk (((s.data.dropWhile isSpaceCh).reverse.dropWhile isSpaceCh).reverse)

/-- The characters the downloader replaces before composing a filename. -/
def invalid_chars : List Char := ['/', '\\', ':', '*', '?', '"', '<', '>', '|']

/-- The sanitisation loop: each path-illegal character becomes a space. -/
def sanitize_market_name (raw : String) : String :=
  String.mk (raw.data.map (fun c => if invalid_chars.contains c then ' ' else c))

/-- Observable outcome of one downloader call: the returned status
string and data string, plus the destination the staged file was moved
to (none when nothing was staged).  The quotation marks the source puts
around interpolated values in its message are not reproduced. -/
structure OrganizeOutcome where
  status : String
  data : String
  movedTo : Option String
deriving DecidableEq

/-- Lines 143-179 of tools/download_tools.py: once a file is staged,
empty (after stripping) market name, year or period makes the attempt a
partial_success and moves the file, under its downloaded filename, into
the Parsing_Error folder; otherwise the sanitised canonical filename and
the year/period folder are composed and the move returns success. -/
def organize_staged (base_save_path : String) (staged_filename : String)
    (parsed_info : ParsedRecord) : OrganizeOutcome :=
  let raw_market_name := pyStrip parsed_info.market_name
  let year := pyStrip parsed_info.year
  let period := pyStrip parsed_info.period
  if raw_market_name == "" || year == "" || period == "" then
    let failed_folder := base_save_path ++ "/failed_downloads/Parsing_Error"
    { status := "partial_success",
      data := "File " ++ staged_filename ++
        " downloaded but could not be organized. Moved to " ++
        failed_folder ++ " for manual review.",
      movedTo := some (failed_folder ++ "/" ++ staged_filename) }
  else
    let market := sanitize_market_name raw_market_name
    let filename := market ++ " " ++ year ++ " " ++ period ++ ".pdf"
    let folder_path := base_save_path ++ "/" ++ year ++ "/" ++ year ++ " " ++ period
    { status := "success", data := filename,
      movedTo := some (folder_path ++ "/" ++ filename) }

/-- CbrePDFDownloaderTool._run after the download attempt: no staged PDF
within the polling bound returns the timeout error, otherwise the staged
file is classified and moved by organize_staged. -/
def downloader_run (report_url : String) (staged_filename : Option String)
    (base_save_path : String) (parsed_info : ParsedRecord) : OrganizeOutcome :=
  match staged_filename with
  | none =>
    { status := "error",
      data := "Download timed out for " ++ report_url,
      movedTo := none }
  | some f => organize_staged base_save_path f parsed_info

/-! ## Run orchestrator (tools/cbre_tool.py CbreReportArchiverTool._run)

The crawler result arrives as the scraped url-to-title dict; the Title
Interpreter and the downloader are function parameters consumed exactly
where the source calls the corresponding sub-tools. -/

/-- urls_to_ignore: the union of the key sets of the three logs. -/
def ignore_urls (s : LogState) : List String :=
  s.success.map Prod.fst ++ s.failed.map Prod.fst ++ s.irrelevant.map Prod.fst

/-- new_reports_to_process: the scraped mapping filtered against the
ignore set. -/
def new_reports_to_process (scraped : List (String × String))
    (ignore : List String) : List (String × String) :=
  scraped.filter (fun p => !ignore.contains p.1)

/-- url_map: the title-keyed inversion of new_reports_to_process, built
by iterating the dict in order; a repeated title keeps the position of
its first insertion but the url of its last. -/
def build_url_map (new_reports : List (String × String)) :
    List (String × String) :=
  new_reports.foldl (fun m p => dinsert m p.2 p.1) []

/-- Outcome routing of the download loop: a success status upserts the
success log with the final filename, a partial_success status upserts
the failed log with the fixed reason string, anything else upserts the
failed log with the returned data. -/
def routeOutcome (s : LogState) (report_url : String)
    (result : String × String) : LogState :=
  if result.1 == "success" then
    { s with success := dinsert s.success report_url result.2 }
  else if result.1 == "partial_success" then
    { s with failed :=
        dinsert s.failed report_url "Partial Success - Parsing/Organizing Failed" }
  else
    { s with failed := dinsert s.failed report_url result.2 }

/-- The for-loop over parsed_reports_data: resolve each record to a url
through url_map (an unmatched original_title is skipped by continue),
invoke the downloader and route its outcome.  Also returns the urls the
downloader was invoked on, in order. -/
def processRecords (download : String → ParsedRecord → String × String)
    (url_map : List (String × String)) :
    List ParsedRecord → LogState → LogState × List String
  | [], s => (s, [])
  | r :: rest, s =>
    match dlookup url_map r.original_title with
    | none => processRecords download url_map rest s
    | some report_url =>
      let s' := routeOutcome s report_url (download report_url r)
      let t := processRecords download url_map rest s'
      (t.1, report_url :: t.2)

/-- The log-relevant core of CbreReportArchiverTool._run: load the
ignore set, filter the scraped candidates, batch-parse the remaining
titles, build url_map, then download and route each record. -/
def run_core (download : String → ParsedRecord → String × String)
    (parser : List String → List ParsedRecord)
    (s : LogState) (scraped : List (String × String)) :
    LogState × List String :=
  let ignore := ignore_urls s
  let nr := new_reports_to_process scraped ignore
  let titles_to_parse := nr.map Prod.snd
  let records := parser titles_to_parse
  let um := build_url_map nr
  processRecords download um records s

/-- The operations that ever mutate the three logs: the two log_manager
commands and one orchestrator run (whose external collaborators are the
carried functions). -/
inductive Op where
  | promote : String → String → Op
  | markIrrelevant : String → Op
  | run : List (String × String) → (List String → List ParsedRecord) →
      (String → ParsedRecord → String × String) → Op

/-- Effect of one operation on the three logs. -/
def applyOp (s : LogState) : Op → LogState
  | Op.promote url fn =>
    let r := promote_to_success s.failed s.success url fn
    { s with failed := r.1, success := r.2.1 }
  | Op.markIrrelevant url =>
    let r := mark_as_irrelevant s.failed s.irrelevant url
    { s with failed := r.1, irrelevant := r.2.1 }
  | Op.run scraped parser download => (run_core download parser s scraped).1

/-- The urls a run would route outcomes for, in order: each parsed
record resolved through url_map. -/
def resolvedUrls (s : LogState) (scraped : List (String × String))
    (parser : List String → List ParsedRecord) : List String :=
  let nr := new_reports_to_process scraped (ignore_urls s)
  let um := build_url_map nr
  (parser (nr.map Prod.snd)).filterMap (fun r => dlookup um r.original_title)

/-- No string occurs twice. -/
def nodupb : List String → Bool
  | [] => true
  | x :: xs => !xs.contains x && nodupb xs

/-- Side condition for the amended invariant claim: a run routes each
url at most once (the log_manager operations need no condition). -/
def opOk (s : LogState) : Op → Bool
  | Op.promote _ _ => true
  | Op.markIrrelevant _ => true
  | Op.run scraped parser _ => nodupb (resolvedUrls s scraped parser)

/-- Every operation of the sequence satisfies its side condition at the
state where it executes. -/
def okSeq : LogState → List Op → Bool
  | _, [] => true
  | s, op :: rest => opOk s op && okSeq (applyOp s op) rest

/-! ## General helper lemmas -/

theorem string_append_assoc (a b c : String) : a ++ b ++ c = a ++ (b ++ c) := by
  apply String.ext
  simp [String.data_append]

/-! ## Claims about the log_manager commands -/

/-- Claim C3: promote_to_success(url, filename) on a state whose failed
log contains url removes url from the failed log and maps url to exactly
filename in the success log (the written-files flag is true); on a state
whose failed log lacks url it reports a visible error (flag false) and
leaves both logs unchanged, writing no file. -/
theorem promote_to_success_spec (failed success : List (String × String))
    (url fn : String) (hwf : wfb failed = true) :
    (dmem failed url = true →
      (promote_to_success failed success url fn).2.2 = true ∧
      dmem (promote_to_success failed success url fn).1 url = false ∧
      dlookup (promote_to_success failed success url fn).2.1 url = some fn) ∧
    (dmem failed url = false →
      promote_to_success failed success url fn = (failed, success, false)) := by
  constructor
  · intro hmem
    simp only [promote_to_success, if_pos hmem]
    exact ⟨trivial, dmem_dpop_self failed url hwf, by simp [dlookup_dinsert]⟩
  · intro hmem
    simp [promote_to_success, hmem]

theorem promote_to_success_spec_witness :
    wfb [("u", "timeout")] = true ∧
    dmem [("u", "timeout")] "u" = true ∧
    ((promote_to_success [("u", "timeout")] [] "u" "f.pdf").2.2 = true ∧
     dmem (promote_to_success [("u", "timeout")] [] "u" "f.pdf").1 "u" = false ∧
     dlookup (promote_to_success [("u", "timeout")] [] "u" "f.pdf").2.1 "u" =
       some "f.pdf") :=
  ⟨by decide, by decide,
   (promote_to_success_spec [("u", "timeout")] [] "u" "f.pdf"
     (by decide)).1 (by decide)⟩

/-- Claim C4: mark_as_irrelevant(url) on a state whose failed log
contains url removes url from the failed log and maps url to exactly the
fixed marker string in the irrelevant log; on a state whose failed log
lacks url it reports a visible error and leaves both logs unchanged. -/
theorem mark_as_irrelevant_spec (failed irrelevant : List (String × String))
    (url : String) (hwf : wfb failed = true) :
    (dmem failed url = true →
      (mark_as_irrelevant failed irrelevant url).2.2 = true ∧
      dmem (mark_as_irrelevant failed irrelevant url).1 url = false ∧
      dlookup (mark_as_irrelevant failed irrelevant url).2.1 url =
        some "Marked as irrelevant by user.") ∧
    (dmem failed url = false →
      mark_as_irrelevant failed irrelevant url = (failed, irrelevant, false)) := by
  constructor
  · intro hmem
    simp only [mark_as_irrelevant, if_pos hmem]
    exact ⟨trivial, dmem_dpop_self failed url hwf, by simp [dlookup_dinsert]⟩
  · intro hmem
    simp [mark_as_irrelevant, hmem]

theorem mark_as_irrelevant_spec_witness :
    wfb [("u", "timeout")] = true ∧
    dmem [("u", "timeout")] "u" = true ∧
    ((mark_as_irrelevant [("u", "timeout")] [] "u").2.2 = true ∧
     dmem (mark_as_irrelevant [("u", "timeout")] [] "u").1 "u" = false ∧
     dlookup (mark_as_irrelevant [("u", "timeout")] [] "u").2.1 "u" =
       some "Marked as irrelevant by user.") :=
  ⟨by decide, by decide,
   (mark_as_irrelevant_spec [("u", "timeout")] [] "u" (by decide)).1 (by decide)⟩

/-! ## Claim about the three loaders -/

/-- Claim C8 (code bug): the failed-log loader, the irrelevant-log
loader and the log_manager loader all return the empty mapping on a
missing file and on a corrupt (not valid JSON) file, but the success-log
loader load_download_log only handles the missing case: on a corrupt
file it raises json.JSONDecodeError instead of returning an empty
mapping, contradicting the uniform load contract. -/
theorem load_log_corrupt_file_behavior :
    load_failed_log LogFile.invalid = [] ∧
    load_irrelevant_log LogFile.invalid = [] ∧
    log_manager_load_log LogFile.invalid = [] ∧
    load_failed_log LogFile.missing = [] ∧
    load_irrelevant_log LogFile.missing = [] ∧
    load_download_log LogFile.missing = Except.ok [] ∧
    load_download_log LogFile.invalid = Except.error "JSONDecodeError" :=
  ⟨rfl, rfl, rfl, rfl, rfl, rfl, rfl⟩

/-! ## Claim about the early-stop comparable value -/

/-- Claim C7 (code bug): the early-stop value is year times 4 plus the
period value for the quarter, half, year-end and ye tokens, but a
full-year token contributes 0 instead of the intended 4: the uppercased
dash-stripped key FULLYEAR misses the period_to_value dictionary (whose
FULL-YEAR entry is unreachable after the dash strip), so a title reading
full-year 2024 yields 8096 and not 2024 * 4 + 4 = 8100. -/
theorem found_value_full_year_bug :
    found_value "q1 2024" = some (2024 * 4 + 1) ∧
    found_value "q2 2024" = some (2024 * 4 + 2) ∧
    found_value "h1 2024" = some (2024 * 4 + 2) ∧
    found_value "q3 2024" = some (2024 * 4 + 3) ∧
    found_value "q4 2024" = some (2024 * 4 + 4) ∧
    found_value "h2 2024" = some (2024 * 4 + 4) ∧
    found_value "year-end 2024" = some (2024 * 4 + 4) ∧
    found_value "ye 2024" = some (2024 * 4 + 4) ∧
    found_value "full-year 2024" = some (2024 * 4 + 0) ∧
    found_value "full-year 2024" ≠ some (2024 * 4 + 4) := by
  refine ⟨rfl, rfl, rfl, rfl, rfl, rfl, rfl, rfl, rfl, by decide⟩

/-! ## Claim about the Download/Organize outcome routing -/

/-- Claim C9: when a staged PDF appeared, an empty (after stripping)
year, market name or period makes the attempt a partial_success whose
file move lands under base/failed_downloads/Parsing_Error under the
original downloaded filename and not under a dated folder (the status is
not success, and only the success branch composes a dated path), and the
orchestrator routes a partial_success to the failed log under the fixed
reason string. -/
theorem downloader_missing_field_partial (base url fname : String)
    (info : ParsedRecord)
    (hy : pyStrip info.year = "" ∨ pyStrip info.market_name = "" ∨
      pyStrip info.period = "") :
    (downloader_run url (some fname) base info).status = "partial_success" ∧
    (downloader_run url (some fname) base info).movedTo =
      some (base ++ "/failed_downloads/Parsing_Error/" ++ fname) ∧
    (downloader_run url (some fname) base info).status ≠ "success" ∧
    (∀ s : LogState,
      dlookup (routeOutcome s url
          ((downloader_run url (some fname) base info).status,
           (downloader_run url (some fname) base info).data)).failed url =
        some "Partial Success - Parsing/Organizing Failed") := by
  have hcond : (pyStrip info.market_name == "" || pyStrip info.year == "" ||
      pyStrip info.period == "") = true := by
    rcases hy with h | h | h <;> simp [h]
  have hrun : downloader_run url (some fname) base info =
      organize_staged base fname info := rfl
  have hpath : base ++ "/failed_downloads/Parsing_Error" ++ "/" ++ fname =
      base ++ "/failed_downloads/Parsing_Error/" ++ fname := by
    rw [string_append_assoc (base ++ "/failed_downloads/Parsing_Error") "/" fname,
        string_append_assoc base "/failed_downloads/Parsing_Error" ("/" ++ fname),
        ← string_append_assoc "/failed_downloads/Parsing_Error" "/" fname,
        show ("/failed_downloads/Parsing_Error" : String) ++ "/" =
          "/failed_downloads/Parsing_Error/" from by decide,
        string_append_assoc]
  refine ⟨?_, ?_, ?_, ?_⟩
  · rw [hrun]
    simp only [organize_staged, hcond, if_true]
  · rw [hrun]
    simp only [organize_staged, hcond, if_true]
    rw [hpath]
  · rw [hrun]
    simp only [organize_staged, hcond, if_true]
    decide
  · intro s
    rw [hrun]
    simp only [organize_staged, hcond, if_true, routeOutcome]
    norm_num
    simp [dlookup_dinsert]

theorem downloader_missing_field_partial_witness :
    (downloader_run "u" (some "r.pdf") "/B"
        ⟨"t", "Dallas", "  ", "Q1"⟩).status = "partial_success" ∧
    (downloader_run "u" (some "r.pdf") "/B"
        ⟨"t", "Dallas", "  ", "Q1"⟩).movedTo =
      some ("/B" ++ "/failed_downloads/Parsing_Error/" ++ "r.pdf") ∧
    dlookup (routeOutcome ⟨[], [], []⟩ "u"
        ((downloader_run "u" (some "r.pdf") "/B"
            ⟨"t", "Dallas", "  ", "Q1"⟩).status,
         (downloader_run "u" (some "r.pdf") "/B"
            ⟨"t", "Dallas", "  ", "Q1"⟩).data)).failed "u" =
      some "Partial Success - Parsing/Organizing Failed" := by
  have h := downloader_missing_field_partial "/B" "u" "r.pdf"
    ⟨"t", "Dallas", "  ", "Q1"⟩ (Or.inl (by decide))
  exact ⟨h.1, h.2.1, h.2.2.2 ⟨[], [], []⟩⟩

/-! ## Claim about the period/year keep rule -/

/-- Claim C5: with target year 2024 and target period Q1, the keep
decision keeps a link whose lowered text parses (strict pattern) as Q1
2024 or as H1 2024 and rejects Q3 2024 and Q1 2023; in general a target
of Q1 or Q2 is satisfied by a parsed H1 and a target of Q3 or Q4 by a
parsed H2 (for any nonzero target year, target years being four-digit by
the tool schema), and a parsed year different from the target year is
never kept. -/
theorem keep_rule_spec :
    (∀ lt : String, searchStrict lt.data = some ("q1", 2024) →
      keep_decision (some 2024) (some "Q1") lt = true) ∧
    (∀ lt : String, searchStrict lt.data = some ("h1", 2024) →
      keep_decision (some 2024) (some "Q1") lt = true) ∧
    (∀ lt : String, searchStrict lt.data = some ("q3", 2024) →
      keep_decision (some 2024) (some "Q1") lt = false) ∧
    (∀ lt : String, searchStrict lt.data = some ("q1", 2023) →
      keep_decision (some 2024) (some "Q1") lt = false) ∧
    (∀ (lt tp : String) (y : Nat), y ≠ 0 → (tp = "Q1" ∨ tp = "Q2") →
      searchStrict lt.data = some ("h1", y) →
      keep_decision (some y) (some tp) lt = true) ∧
    (∀ (lt tp : String) (y : Nat), y ≠ 0 → (tp = "Q3" ∨ tp = "Q4") →
      searchStrict lt.data = some ("h2", y) →
      keep_decision (some y) (some tp) lt = true) ∧
    (∀ (lt p : String) (tp : Option String) (y ry : Nat), y ≠ 0 → ry ≠ y →
      searchStrict lt.data = some (p, ry) →
      keep_decision (some y) tp lt = false) := by
  refine ⟨?_, ?_, ?_, ?_, ?_, ?_, ?_⟩
  · intro lt h
    simp only [keep_decision, h]
    decide
  · intro lt h
    simp only [keep_decision, h]
    decide
  · intro lt h
    simp only [keep_decision, h]
    decide
  · intro lt h
    simp only [keep_decision, h]
    decide
  · intro lt tp y hy htp h
    have h1 : ((y : Nat) != 0) = true := by simp [hy]
    have h2 : ((some y : Option Nat) == some y) = true := by simp
    rcases htp with rfl | rfl <;>
      · simp only [keep_decision, h, Option.map_some', pyTruthyNat, pyTruthyStr,
          h1, h2]
        decide
  · intro lt tp y hy htp h
    have h1 : ((y : Nat) != 0) = true := by simp [hy]
    have h2 : ((some y : Option Nat) == some y) = true := by simp
    rcases htp with rfl | rfl <;>
      · simp only [keep_decision, h, Option.map_some', pyTruthyNat, pyTruthyStr,
          h1, h2]
        decide
  · intro lt p tp y ry hy hry h
    have h1 : ((y : Nat) != 0) = true := by simp [hy]
    have h3 : ((some ry : Option Nat) == some y) = false := by simp [hry]
    simp only [keep_decision, h, Option.map_some', pyTruthyNat, h1, h3,
      Bool.and_false]
    simp

theorem keep_rule_spec_witness :
    keep_decision (some 2024) (some "Q1") "q1 2024" = true ∧
    keep_decision (some 2024) (some "Q1") "h1 2024" = true ∧
    keep_decision (some 2024) (some "Q1") "q3 2024" = false ∧
    keep_decision (some 2024) (some "Q1") "q1 2023" = false ∧
    keep_decision (some 2024) (some "Q3") "h2 2024" = true ∧
    keep_decision (some 2024) (some "Q2") "q1 2023" = false :=
  ⟨keep_rule_spec.1 "q1 2024" (by decide),
   keep_rule_spec.2.1 "h1 2024" (by decide),
   keep_rule_spec.2.2.1 "q3 2024" (by decide),
   keep_rule_spec.2.2.2.1 "q1 2023" (by decide),
   keep_rule_spec.2.2.2.2.2.1 "h2 2024" "Q3" 2024 (by decide) (Or.inl rfl)
     (by decide),
   keep_rule_spec.2.2.2.2.2.2 "q1 2023" "q1" (some "Q2") 2024 2023 (by decide)
     (by decide) (by decide)⟩

/-! ## Claim about early stopping -/

/-- The scrape configuration the orchestrator builds for a request with
year 2024 and period Q2 (the quoting inside the next-page selector
string is omitted here; the selectors carry no logic). -/
def cfgYear2024Q2 : ScrapeConfig :=
  { content_container_selector := ".coveo-result-list-container",
    link_selector := ".coveo-result-list-container a",
    next_page_selector := "li.coveo-pager-next span[role=button]",
    search_terms := [],
    enable_early_stopping := true,
    target_year := some 2024,
    target_period := some "Q2" }

/-- Claim C6: with early stopping enabled and target (2024, Q2), a page
opening with links parsing as Q3 2024, Q2 2024, Q1 2024 halts the crawl
at the Q1 2024 link whatever follows: the examined texts are exactly the
first three links for every remainder of the page and every list of
further pages (so a trailing Q4 2023 link and all later pages, never
examined, are never processed), one page is visited, only the Q2 2024
link is kept, and the halt is by value 2024 * 4 + 1 = 8097 being
strictly below the target value 2024 * 4 + 2 = 8098. -/
theorem early_stop_ordering_spec (rest : List (String × String))
    (more : List (List (String × String))) :
    extract_links_from_pages cfgYear2024Q2
      ((("https://x/u1", "Q3 2024 US Industrial Figures") ::
        ("https://x/u2", "Q2 2024 US Industrial Figures") ::
        ("https://x/u3", "Q1 2024 US Industrial Figures") :: rest) :: more) =
      ⟨[("https://x/u2", "Q2 2024 US Industrial Figures")],
       ["Q3 2024 US Industrial Figures", "Q2 2024 US Industrial Figures",
        "Q1 2024 US Industrial Figures"], 1⟩ ∧
    found_value (pyLower "Q1 2024 US Industrial Figures") = some 8097 ∧
    target_value_of cfgYear2024Q2 = some 8098 ∧
    early_stop_check cfgYear2024Q2 (pyLower "Q1 2024 US Industrial Figures") =
      true ∧
    early_stop_check cfgYear2024Q2 (pyLower "Q2 2024 US Industrial Figures") =
      false :=
  ⟨rfl, rfl, rfl, rfl, rfl⟩

/-! ## Helper lemmas about the run orchestrator -/

theorem dmem_eq_keys_contains (d : List (String × String)) (u : String) :
    dmem d u = (d.map Prod.fst).contains u := by
  induction d with
  | nil => simp [dmem, dlookup]
  | cons hd tl ih =>
    obtain ⟨k, v⟩ := hd
    rw [List.map_cons, List.contains_cons]
    by_cases h : k = u
    · subst h
      simp [dmem, dlookup]
    · have hx : ¬ u = k := fun hh => h hh.symm
      have h' : (u == k) = false := by simp [hx]
      rw [← ih]
      simp [dmem, dlookup, h, h']

theorem contains_append_str (l1 l2 : List String) (u : String) :
    (l1 ++ l2).contains u = (l1.contains u || l2.contains u) := by
  induction l1 with
  | nil => simp
  | cons a t ih => simp [List.contains_cons, ih, Bool.or_assoc]

theorem ignore_urls_contains (s : LogState) (u : String) :
    (ignore_urls s).contains u = inAnyLog s u := by
  simp only [ignore_urls, inAnyLog, contains_append_str, dmem_eq_keys_contains]

theorem mem_new_reports (scraped : List (String × String))
    (ignore : List String) (p : String × String)
    (h : p ∈ new_reports_to_process scraped ignore) :
    p ∈ scraped ∧ ignore.contains p.1 = false := by
  have h' := List.mem_filter.mp h
  exact ⟨h'.1, by simpa using h'.2⟩

theorem dlookup_foldl_dinsert (nr : List (String × String))
    (m : List (String × String)) (t u : String)
    (h : dlookup (nr.foldl (fun m p => dinsert m p.2 p.1) m) t = some u) :
    (u, t) ∈ nr ∨ dlookup m t = some u := by
  induction nr generalizing m with
  | nil => exact Or.inr h
  | cons hd tl ih =>
    obtain ⟨hu, ht⟩ := hd
    simp only [List.foldl_cons] at h
    rcases ih (dinsert m ht hu) h with hmem | hlk
    · exact Or.inl (List.mem_cons_of_mem _ hmem)
    · rw [dlookup_dinsert] at hlk
      by_cases he : ht = t
      · subst he
        have : hu = u := by simpa using hlk
        subst this
        exact Or.inl (List.mem_cons_self _ _)
      · rw [if_neg he] at hlk
        exact Or.inr hlk

theorem dlookup_build_url_map_mem (nr : List (String × String)) (t u : String)
    (h : dlookup (build_url_map nr) t = some u) : (u, t) ∈ nr := by
  rcases dlookup_foldl_dinsert nr [] t u h with hmem | hlk
  · exact hmem
  · simp [dlookup] at hlk

theorem routeOutcome_lookup_ne (s : LogState) (v : String) (res : String × String)
    (u : String) (hu : u ≠ v) :
    dlookup (routeOutcome s v res).success u = dlookup s.success u ∧
    dlookup (routeOutcome s v res).failed u = dlookup s.failed u ∧
    dlookup (routeOutcome s v res).irrelevant u = dlookup s.irrelevant u := by
  have hvu : ¬ v = u := fun h => hu h.symm
  unfold routeOutcome
  split_ifs <;> simp [dlookup_dinsert, hvu]

theorem processRecords_untouched
    (download : String → ParsedRecord → String × String)
    (um : List (String × String)) (records : List ParsedRecord)
    (s : LogState) (u : String)
    (h : ∀ r ∈ records, dlookup um r.original_title ≠ some u) :
    u ∉ (processRecords download um records s).2 ∧
    dlookup (processRecords download um records s).1.success u =
      dlookup s.success u ∧
    dlookup (processRecords download um records s).1.failed u =
      dlookup s.failed u ∧
    dlookup (processRecords download um records s).1.irrelevant u =
      dlookup s.irrelevant u := by
  induction records generalizing s with
  | nil => simp [processRecords]
  | cons r rest ih =>
    have htail : ∀ r' ∈ rest, dlookup um r'.original_title ≠ some u :=
      fun r' hr' => h r' (List.mem_cons_of_mem _ hr')
    cases hlk : dlookup um r.original_title with
    | none =>
      simp only [processRecords, hlk]
      exact ih s htail
    | some v =>
      have hvu : u ≠ v := by
        intro he
        exact h r (List.mem_cons_self _ _) (he ▸ hlk)
      have hroute := routeOutcome_lookup_ne s v (download v r) u hvu
      have ihx := ih (routeOutcome s v (download v r)) htail
      simp only [processRecords, hlk]
      refine ⟨?_, ?_, ?_, ?_⟩
      · intro hmem
        rcases List.mem_cons.mp hmem with he | hm
        · exact hvu he
        · exact ihx.1 hm
      · rw [ihx.2.1, hroute.1]
      · rw [ihx.2.2.1, hroute.2.1]
      · rw [ihx.2.2.2, hroute.2.2]

theorem processRecords_downloaded_mem
    (download : String → ParsedRecord → String × String)
    (um : List (String × String)) (records : List ParsedRecord)
    (s : LogState) (u : String)
    (h : u ∈ (processRecords download um records s).2) :
    ∃ r ∈ records, dlookup um r.original_title = some u := by
  induction records generalizing s with
  | nil => simp [processRecords] at h
  | cons r rest ih =>
    cases hlk : dlookup um r.original_title with
    | none =>
      simp only [processRecords, hlk] at h
      obtain ⟨r', hr', hu⟩ := ih s h
      exact ⟨r', List.mem_cons_of_mem _ hr', hu⟩
    | some v =>
      simp only [processRecords, hlk] at h
      rcases List.mem_cons.mp h with he | hm
      · exact ⟨r, List.mem_cons_self _ _, he ▸ hlk⟩
      · obtain ⟨r', hr', hu⟩ := ih (routeOutcome s v (download v r)) hm
        exact ⟨r', List.mem_cons_of_mem _ hr', hu⟩

/-! ## Claim about skipping already-logged urls -/

/-- Claim C1: a url already present in any of the three logs at run
start is filtered out of the candidate mapping before the batch
title-parse call: it is not a key of new_reports_to_process (so the
batch sent to the Title Interpreter consists only of titles of
candidates outside the ignore set), and the Download/Organize step is
never invoked on it. -/
theorem run_skips_logged_urls (s : LogState) (scraped : List (String × String))
    (parser : List String → List ParsedRecord)
    (download : String → ParsedRecord → String × String) (url : String)
    (h : inAnyLog s url = true) :
    url ∉ (new_reports_to_process scraped (ignore_urls s)).map Prod.fst ∧
    (∀ t ∈ (new_reports_to_process scraped (ignore_urls s)).map Prod.snd,
      ∃ u, (u, t) ∈ scraped ∧ inAnyLog s u = false) ∧
    url ∉ (run_core download parser s scraped).2 := by
  have hkey : ∀ p ∈ new_reports_to_process scraped (ignore_urls s),
      inAnyLog s p.1 = false := by
    intro p hp
    have := (mem_new_reports scraped (ignore_urls s) p hp).2
    rwa [ignore_urls_contains] at this
  refine ⟨?_, ?_, ?_⟩
  · intro hmem
    obtain ⟨p, hp, hfst⟩ := List.mem_map.mp hmem
    have := hkey p hp
    rw [hfst] at this
    rw [this] at h
    exact Bool.false_ne_true h
  · intro t hmem
    obtain ⟨p, hp, hsnd⟩ := List.mem_map.mp hmem
    exact ⟨p.1, by
      have hmem' := (mem_new_reports scraped (ignore_urls s) p hp).1
      rw [← hsnd]
      exact ⟨hmem', hkey p hp⟩⟩
  · intro hmem
    obtain ⟨r, _, hlk⟩ := processRecords_downloaded_mem download
      (build_url_map (new_reports_to_process scraped (ignore_urls s)))
      (parser ((new_reports_to_process scraped (ignore_urls s)).map Prod.snd))
      s url hmem
    have hpair := dlookup_build_url_map_mem _ _ _ hlk
    have := hkey _ hpair
    simp only at this
    rw [this] at h
    exact Bool.false_ne_true h

theorem run_skips_logged_urls_witness :
    inAnyLog ⟨[("u", "f.pdf")], [], []⟩ "u" = true ∧
    ("u" ∉ (new_reports_to_process [("u", "ta"), ("v", "tb")]
        (ignore_urls ⟨[("u", "f.pdf")], [], []⟩)).map Prod.fst ∧
     "u" ∉ (run_core (fun _ _ => ("success", "x.pdf"))
        (fun ts => ts.map (fun t => ⟨t, "M", "2024", "Q1"⟩))
        ⟨[("u", "f.pdf")], [], []⟩ [("u", "ta"), ("v", "tb")]).2) := by
  have h := run_skips_logged_urls ⟨[("u", "f.pdf")], [], []⟩
    [("u", "ta"), ("v", "tb")]
    (fun ts => ts.map (fun t => ⟨t, "M", "2024", "Q1"⟩))
    (fun _ _ => ("success", "x.pdf")) "u" (by decide)
  exact ⟨by decide, h.1, h.2.2⟩

/-! ## Claim about title collisions in url_map -/

/-- Claim C10 (implicit): url_map is built as a title-keyed dict, so for
two distinct new urls scraped with the same title the map resolves that
title to the last url inserted; in that run every downloader invocation
is on that last url, the first url is never downloaded and none of its
log entries changes (it is dropped without a log entry), and a parsed
record whose original_title matches no scraped title is skipped without
downloading or logging anything. -/
theorem url_map_title_collision (u1 u2 t : String) (s : LogState)
    (parser : List String → List ParsedRecord)
    (download : String → ParsedRecord → String × String)
    (h12 : u1 ≠ u2) (h1 : inAnyLog s u1 = false) (h2 : inAnyLog s u2 = false) :
    dlookup (build_url_map (new_reports_to_process [(u1, t), (u2, t)]
      (ignore_urls s))) t = some u2 ∧
    (∀ v ∈ (run_core download parser s [(u1, t), (u2, t)]).2, v = u2) ∧
    u1 ∉ (run_core download parser s [(u1, t), (u2, t)]).2 ∧
    dlookup (run_core download parser s [(u1, t), (u2, t)]).1.success u1 =
      dlookup s.success u1 ∧
    dlookup (run_core download parser s [(u1, t), (u2, t)]).1.failed u1 =
      dlookup s.failed u1 ∧
    dlookup (run_core download parser s [(u1, t), (u2, t)]).1.irrelevant u1 =
      dlookup s.irrelevant u1 ∧
    (∀ (um : List (String × String)) (r : ParsedRecord)
      (rest : List ParsedRecord) (s' : LogState),
      dlookup um r.original_title = none →
      processRecords download um (r :: rest) s' =
        processRecords download um rest s') := by
  have hc1 : (ignore_urls s).contains u1 = false := by
    rw [ignore_urls_contains]; exact h1
  have hc2 : (ignore_urls s).contains u2 = false := by
    rw [ignore_urls_contains]; exact h2
  have hm1 : u1 ∉ ignore_urls s := by simpa using hc1
  have hm2 : u2 ∉ ignore_urls s := by simpa using hc2
  have hnr : new_reports_to_process [(u1, t), (u2, t)] (ignore_urls s) =
      [(u1, t), (u2, t)] := by
    simp [new_reports_to_process, List.filter_cons, hm1, hm2]
  have hum : build_url_map [(u1, t), (u2, t)] = [(t, u2)] := by
    simp [build_url_map, dinsert]
  have hresolve : ∀ ti v : String, dlookup [(t, u2)] ti = some v → v = u2 := by
    intro ti v h
    by_cases he : t = ti
    · simp only [dlookup, if_pos he] at h
      exact (Option.some.inj h).symm
    · simp [dlookup, if_neg he] at h
  have hrun : run_core download parser s [(u1, t), (u2, t)] =
      processRecords download [(t, u2)] (parser [t, t]) s := by
    simp only [run_core, hnr, hum, List.map_cons, List.map_nil]
  have hall : ∀ v ∈ (run_core download parser s [(u1, t), (u2, t)]).2, v = u2 := by
    intro v hv
    rw [hrun] at hv
    obtain ⟨r, _, hlk⟩ := processRecords_downloaded_mem download [(t, u2)]
      (parser [t, t]) s v hv
    exact hresolve _ _ hlk
  have hnot : ∀ r ∈ parser [t, t], dlookup [(t, u2)] r.original_title ≠ some u1 := by
    intro r _ he
    exact h12 (hresolve _ _ he)
  have huntouched := processRecords_untouched download [(t, u2)] (parser [t, t])
    s u1 hnot
  refine ⟨?_, hall, ?_, ?_, ?_, ?_, ?_⟩
  · rw [hnr, hum]
    simp [dlookup]
  · intro hmem
    exact h12 (hall u1 hmem)
  · rw [hrun]; exact huntouched.2.1
  · rw [hrun]; exact huntouched.2.2.1
  · rw [hrun]; exact huntouched.2.2.2
  · intro um r rest s' hnone
    simp [processRecords, hnone]

theorem url_map_title_collision_witness :
    dlookup (build_url_map (new_reports_to_process [("a", "t"), ("b", "t")]
      (ignore_urls ⟨[], [], []⟩))) "t" = some "b" ∧
    "a" ∉ (run_core (fun _ _ => ("success", "f.pdf"))
      (fun _ => [⟨"t", "M", "2024", "Q1"⟩]) ⟨[], [], []⟩
      [("a", "t"), ("b", "t")]).2 ∧
    dlookup (run_core (fun _ _ => ("success", "f.pdf"))
      (fun _ => [⟨"t", "M", "2024", "Q1"⟩]) ⟨[], [], []⟩
      [("a", "t"), ("b", "t")]).1.success "a" =
      dlookup (⟨[], [], []⟩ : LogState).success "a" := by
  have h := url_map_title_collision "a" "b" "t" ⟨[], [], []⟩
    (fun _ => [⟨"t", "M", "2024", "Q1"⟩]) (fun _ _ => ("success", "f.pdf"))
    (by decide) (by decide) (by decide)
  exact ⟨h.1, h.2.2.1, h.2.2.2.1⟩

/-! ## Disjointness invariant machinery -/

/-- Every url is a key of at most one of the three logs. -/
def DisjointP (s : LogState) : Prop :=
  ∀ u : String,
    ¬ (dmem s.success u = true ∧ dmem s.failed u = true) ∧
    ¬ (dmem s.success u = true ∧ dmem s.irrelevant u = true) ∧
    ¬ (dmem s.failed u = true ∧ dmem s.irrelevant u = true)

theorem pairwiseDisjointb_iff (s : LogState) :
    pairwiseDisjointb s = true ↔ DisjointP s := by
  constructor
  · intro h u
    simp only [pairwiseDisjointb, Bool.and_eq_true, List.all_eq_true] at h
    obtain ⟨h1, h2⟩ := h
    refine ⟨?_, ?_, ?_⟩
    · rintro ⟨hs, hf⟩
      have hk : u ∈ s.success.map Prod.fst := by
        rw [dmem_eq_keys_contains] at hs
        simpa using hs
      have := h1 u hk
      simp [hf] at this
    · rintro ⟨hs, hi⟩
      have hk : u ∈ s.success.map Prod.fst := by
        rw [dmem_eq_keys_contains] at hs
        simpa using hs
      have := h1 u hk
      simp [hi] at this
    · rintro ⟨hf, hi⟩
      have hk : u ∈ s.failed.map Prod.fst := by
        rw [dmem_eq_keys_contains] at hf
        simpa using hf
      have := h2 u hk
      simp [hi] at this
  · intro h
    simp only [pairwiseDisjointb, Bool.and_eq_true, List.all_eq_true]
    constructor
    · intro k hk
      have hs : dmem s.success k = true := by
        rw [dmem_eq_keys_contains]
        simpa using hk
      have hf : dmem s.failed k = false := by
        cases hb : dmem s.failed k
        · rfl
        · exact absurd ⟨hs, hb⟩ (h k).1
      have hi : dmem s.irrelevant k = false := by
        cases hb : dmem s.irrelevant k
        · rfl
        · exact absurd ⟨hs, hb⟩ (h k).2.1
      simp [hf, hi]
    · intro k hk
      have hfk : dmem s.failed k = true := by
        rw [dmem_eq_keys_contains]
        simpa using hk
      have hi : dmem s.irrelevant k = false := by
        cases hb : dmem s.irrelevant k
        · rfl
        · exact absurd ⟨hfk, hb⟩ (h k).2.2
      simp [hi]

theorem routeOutcome_dmem_ne (s : LogState) (v : String) (res : String × String)
    (u : String) (hu : u ≠ v) :
    dmem (routeOutcome s v res).success u = dmem s.success u ∧
    dmem (routeOutcome s v res).failed u = dmem s.failed u ∧
    dmem (routeOutcome s v res).irrelevant u = dmem s.irrelevant u := by
  have h := routeOutcome_lookup_ne s v res u hu
  exact ⟨by simp [dmem, h.1], by simp [dmem, h.2.1], by simp [dmem, h.2.2]⟩

theorem routeOutcome_inAnyLog_ne (s : LogState) (v : String)
    (res : String × String) (u : String) (hu : u ≠ v) :
    inAnyLog (routeOutcome s v res) u = inAnyLog s u := by
  have h := routeOutcome_dmem_ne s v res u hu
  simp [inAnyLog, h.1, h.2.1, h.2.2]

theorem routeOutcome_disjoint_point (s : LogState) (v : String)
    (res : String × String) (hv : inAnyLog s v = false) :
    ¬ (dmem (routeOutcome s v res).success v = true ∧
       dmem (routeOutcome s v res).failed v = true) ∧
    ¬ (dmem (routeOutcome s v res).success v = true ∧
       dmem (routeOutcome s v res).irrelevant v = true) ∧
    ¬ (dmem (routeOutcome s v res).failed v = true ∧
       dmem (routeOutcome s v res).irrelevant v = true) := by
  have hv' : (dmem s.success v = false ∧ dmem s.failed v = false) ∧
      dmem s.irrelevant v = false := by
    simpa [inAnyLog, Bool.or_eq_false_iff] using hv
  obtain ⟨⟨hs, hf⟩, hi⟩ := hv'
  unfold routeOutcome
  split_ifs <;> simp [dmem_dinsert_self, hs, hf, hi]

theorem routeOutcome_wf (s : LogState) (v : String) (res : String × String)
    (h : stateWfb s = true) : stateWfb (routeOutcome s v res) = true := by
  have h' : (wfb s.success = true ∧ wfb s.failed = true) ∧
      wfb s.irrelevant = true := by
    simpa [stateWfb, Bool.and_eq_true] using h
  unfold routeOutcome
  split_ifs <;>
    simp [stateWfb, wfb_dinsert, h'.1.1, h'.1.2, h'.2]

theorem processRecords_wf (download : String → ParsedRecord → String × String)
    (um : List (String × String)) (records : List ParsedRecord) :
    ∀ s : LogState, stateWfb s = true →
      stateWfb (processRecords download um records s).1 = true := by
  induction records with
  | nil => intro s h; simpa [processRecords] using h
  | cons r rest ih =>
    intro s h
    cases hlk : dlookup um r.original_title with
    | none =>
      simp only [processRecords, hlk]
      exact ih s h
    | some v =>
      simp only [processRecords, hlk]
      exact ih _ (routeOutcome_wf s v _ h)

theorem processRecords_disjoint
    (download : String → ParsedRecord → String × String)
    (um : List (String × String)) (records : List ParsedRecord) :
    ∀ s : LogState, DisjointP s →
    nodupb (records.filterMap (fun r => dlookup um r.original_title)) = true →
    (∀ u, u ∈ records.filterMap (fun r => dlookup um r.original_title) →
      inAnyLog s u = false) →
    DisjointP (processRecords download um records s).1 := by
  induction records with
  | nil => intro s hd _ _; simpa [processRecords] using hd
  | cons r rest ih =>
    intro s hd hnd hfresh
    cases hlk : dlookup um r.original_title with
    | none =>
      simp only [processRecords, hlk]
      apply ih s hd
      · simpa [List.filterMap_cons, hlk] using hnd
      · intro u hu
        apply hfresh
        simpa [List.filterMap_cons, hlk] using hu
    | some v =>
      have hfilter : (r :: rest).filterMap
          (fun r => dlookup um r.original_title) =
          v :: rest.filterMap (fun r => dlookup um r.original_title) := by
        simp [List.filterMap_cons, hlk]
      rw [hfilter] at hnd hfresh
      simp only [nodupb, Bool.and_eq_true, Bool.not_eq_true'] at hnd
      have hv : inAnyLog s v = false := hfresh v (List.mem_cons_self _ _)
      simp only [processRecords, hlk]
      apply ih (routeOutcome s v (download v r)) ?_ hnd.2
      · intro u hu
        have hne : u ≠ v := by
          intro he
          subst he
          have hcv : (rest.filterMap
              (fun r => dlookup um r.original_title)).contains u = true := by
            simpa using hu
          rw [hnd.1] at hcv
          exact Bool.false_ne_true hcv
        rw [routeOutcome_inAnyLog_ne s v _ u hne]
        exact hfresh u (List.mem_cons_of_mem _ hu)
      · intro u
        by_cases hu : u = v
        · subst hu
          exact routeOutcome_disjoint_point s u (download u r) hv
        · have he := routeOutcome_dmem_ne s v (download v r) u hu
          rw [he.1, he.2.1, he.2.2]
          exact hd u

theorem resolved_fresh (s : LogState) (scraped : List (String × String))
    (parser : List String → List ParsedRecord) :
    ∀ u, u ∈ resolvedUrls s scraped parser → inAnyLog s u = false := by
  intro u hu
  obtain ⟨r, hr, hlk⟩ := List.mem_filterMap.mp hu
  have hpair := dlookup_build_url_map_mem _ _ _ hlk
  have := (mem_new_reports _ _ _ hpair).2
  rwa [ignore_urls_contains] at this

theorem applyOp_preserves (s : LogState) (op : Op)
    (hwf : stateWfb s = true) (hd : DisjointP s) (hok : opOk s op = true) :
    stateWfb (applyOp s op) = true ∧ DisjointP (applyOp s op) := by
  have hw : (wfb s.success = true ∧ wfb s.failed = true) ∧
      wfb s.irrelevant = true := by
    simpa [stateWfb, Bool.and_eq_true] using hwf
  obtain ⟨⟨hws, hwfld⟩, hwi⟩ := hw
  cases op with
  | promote url fn =>
    by_cases hmem : dmem s.failed url = true
    · have happ : applyOp s (Op.promote url fn) =
          LogState.mk (dinsert s.success url fn) (dpop s.failed url)
            s.irrelevant := by
        simp [applyOp, promote_to_success, hmem]
      rw [happ]
      constructor
      · simp [stateWfb, wfb_dinsert _ _ _ hws, wfb_dpop _ _ hwfld, hwi]
      · intro u
        show ¬ (dmem (dinsert s.success url fn) u = true ∧
            dmem (dpop s.failed url) u = true) ∧
          ¬ (dmem (dinsert s.success url fn) u = true ∧
            dmem s.irrelevant u = true) ∧
          ¬ (dmem (dpop s.failed url) u = true ∧
            dmem s.irrelevant u = true)
        by_cases hu : u = url
        · subst hu
          have hirr : dmem s.irrelevant u = false := by
            cases hb : dmem s.irrelevant u
            · rfl
            · exact absurd ⟨hmem, hb⟩ (hd u).2.2
          have e2 : dmem (dpop s.failed u) u = false :=
            dmem_dpop_self _ _ hwfld
          exact ⟨fun hp => by rw [e2] at hp; exact Bool.false_ne_true hp.2,
                 fun hp => by rw [hirr] at hp; exact Bool.false_ne_true hp.2,
                 fun hp => by rw [e2] at hp; exact Bool.false_ne_true hp.1⟩
        · refine ⟨?_, ?_, ?_⟩
          · rintro ⟨ha, hb⟩
            rw [dmem_dinsert_ne _ _ _ _ hu] at ha
            exact (hd u).1 ⟨ha, dmem_dpop_le _ _ _ hb⟩
          · rintro ⟨ha, hb⟩
            rw [dmem_dinsert_ne _ _ _ _ hu] at ha
            exact (hd u).2.1 ⟨ha, hb⟩
          · rintro ⟨ha, hb⟩
            exact (hd u).2.2 ⟨dmem_dpop_le _ _ _ ha, hb⟩
    · have happ : applyOp s (Op.promote url fn) =
          LogState.mk s.success s.failed s.irrelevant := by
        simp [applyOp, promote_to_success, hmem]
      rw [happ]
      exact ⟨hwf, hd⟩
  | markIrrelevant url =>
    by_cases hmem : dmem s.failed url = true
    · have happ : applyOp s (Op.markIrrelevant url) =
          LogState.mk s.success (dpop s.failed url)
            (dinsert s.irrelevant url "Marked as irrelevant by user.") := by
        simp [applyOp, mark_as_irrelevant, hmem]
      rw [happ]
      constructor
      · simp [stateWfb, wfb_dinsert _ _ _ hwi, wfb_dpop _ _ hwfld, hws]
      · intro u
        show ¬ (dmem s.success u = true ∧
            dmem (dpop s.failed url) u = true) ∧
          ¬ (dmem s.success u = true ∧
            dmem (dinsert s.irrelevant url
              "Marked as irrelevant by user.") u = true) ∧
          ¬ (dmem (dpop s.failed url) u = true ∧
            dmem (dinsert s.irrelevant url
              "Marked as irrelevant by user.") u = true)
        by_cases hu : u = url
        · subst hu
          have hsucc : dmem s.success u = false := by
            cases hb : dmem s.success u
            · rfl
            · exact absurd ⟨hb, hmem⟩ (hd u).1
          have e2 : dmem (dpop s.failed u) u = false :=
            dmem_dpop_self _ _ hwfld
          exact ⟨fun hp => by rw [e2] at hp; exact Bool.false_ne_true hp.2,
                 fun hp => by rw [hsucc] at hp; exact Bool.false_ne_true hp.1,
                 fun hp => by rw [e2] at hp; exact Bool.false_ne_true hp.1⟩
        · refine ⟨?_, ?_, ?_⟩
          · rintro ⟨ha, hb⟩
            exact (hd u).1 ⟨ha, dmem_dpop_le _ _ _ hb⟩
          · rintro ⟨ha, hb⟩
            rw [dmem_dinsert_ne _ _ _ _ hu] at hb
            exact (hd u).2.1 ⟨ha, hb⟩
          · rintro ⟨ha, hb⟩
            rw [dmem_dinsert_ne _ _ _ _ hu] at hb
            exact (hd u).2.2 ⟨dmem_dpop_le _ _ _ ha, hb⟩
    · have happ : applyOp s (Op.markIrrelevant url) =
          LogState.mk s.success s.failed s.irrelevant := by
        simp [applyOp, mark_as_irrelevant, hmem]
      rw [happ]
      exact ⟨hwf, hd⟩
  | run scraped parser download =>
    have hokr : nodupb (resolvedUrls s scraped parser) = true := by
      simpa [opOk] using hok
    constructor
    · exact processRecords_wf download
        (build_url_map (new_reports_to_process scraped (ignore_urls s)))
        (parser ((new_reports_to_process scraped (ignore_urls s)).map Prod.snd))
        s hwf
    · exact processRecords_disjoint download
        (build_url_map (new_reports_to_process scraped (ignore_urls s)))
        (parser ((new_reports_to_process scraped (ignore_urls s)).map Prod.snd))
        s hd hokr (resolved_fresh s scraped parser)

theorem okSeq_foldl (ops : List Op) : ∀ s : LogState,
    stateWfb s = true → DisjointP s → okSeq s ops = true →
    stateWfb (ops.foldl applyOp s) = true ∧
    DisjointP (ops.foldl applyOp s) := by
  induction ops with
  | nil => intro s h1 h2 _; exact ⟨h1, h2⟩
  | cons op rest ih =>
    intro s h1 h2 hok
    simp only [okSeq, Bool.and_eq_true] at hok
    have hstep := applyOp_preserves s op h1 h2 hok.1
    simpa [List.foldl_cons] using ih (applyOp s op) hstep.1 hstep.2 hok.2

/-! ## Claims about the at-most-one-log invariant -/

/-- A run against fresh state in which the crawler found two distinct
urls carrying the same title: the batch parser then sees that title
twice and returns two records for it, both resolving through url_map to
the second url; the first download attempt times out and the second
succeeds. -/
def dupTitleRunOp : Op :=
  Op.run [("u1", "t"), ("u2", "t")]
    (fun _ => [⟨"t", "A", "2024", "Q1"⟩, ⟨"t", "B", "2024", "Q1"⟩])
    (fun _ r => if r.market_name = "A" then ("error", "Download timed out")
      else ("success", "B 2024 Q1.pdf"))

/-- Counterexample to claim C2 as stated: from the well-formed, pairwise
disjoint empty state, a single orchestrator run with duplicate scraped
titles routes the same url twice (error first, success second) and
leaves that url a key of both the failed and the success log, so the
reached state violates the at-most-one-log property. -/
theorem run_dup_title_breaks_invariant :
    stateWfb ⟨[], [], []⟩ = true ∧
    pairwiseDisjointb ⟨[], [], []⟩ = true ∧
    dmem (applyOp ⟨[], [], []⟩ dupTitleRunOp).success "u2" = true ∧
    dmem (applyOp ⟨[], [], []⟩ dupTitleRunOp).failed "u2" = true ∧
    pairwiseDisjointb (applyOp ⟨[], [], []⟩ dupTitleRunOp) = false := by
  decide

/-- Claim C2 (amended): at every state reachable from a well-formed
initial state with pairwise disjoint log key sets, via any sequence of
promote_to_success, mark_as_irrelevant, and single-run outcome routing
in which each run routes every url at most once (its parsed records
resolve to pairwise distinct urls), every url is a key of at most one of
the three logs.  The at-most-once proviso is forced by the duplicate
title counterexample. -/
theorem logs_pairwise_disjoint_invariant (s : LogState) (ops : List Op)
    (hwf : stateWfb s = true) (hdisj : pairwiseDisjointb s = true)
    (hok : okSeq s ops = true) :
    pairwiseDisjointb (ops.foldl applyOp s) = true := by
  have h := okSeq_foldl ops s hwf ((pairwiseDisjointb_iff s).mp hdisj) hok
  exact (pairwiseDisjointb_iff _).mpr h.2

theorem logs_pairwise_disjoint_invariant_witness :
    okSeq ⟨[], [], []⟩
      [Op.run [("u1", "ta"), ("u2", "tb")]
        (fun _ => [⟨"ta", "A", "2024", "Q1"⟩, ⟨"tb", "B", "2024", "Q1"⟩])
        (fun _ r => if r.market_name = "A" then ("success", "A.pdf")
          else ("error", "Download timed out")),
       Op.promote "u2" "fixed.pdf"] = true ∧
    pairwiseDisjointb
      ([Op.run [("u1", "ta"), ("u2", "tb")]
        (fun _ => [⟨"ta", "A", "2024", "Q1"⟩, ⟨"tb", "B", "2024", "Q1"⟩])
        (fun _ r => if r.market_name = "A" then ("success", "A.pdf")
          else ("error", "Download timed out")),
       Op.promote "u2" "fixed.pdf"].foldl applyOp ⟨[], [], []⟩) = true :=
  ⟨by decide,
   logs_pairwise_disjoint_invariant ⟨[], [], []⟩
     [Op.run [("u1", "ta"), ("u2", "tb")]
       (fun _ => [⟨"ta", "A", "2024", "Q1"⟩, ⟨"tb", "B", "2024", "Q1"⟩])
       (fun _ r => if r.market_name = "A" then ("success", "A.pdf")
         else ("error", "Download timed out")),
      Op.promote "u2" "fixed.pdf"]
     (by decide) (by decide) (by decide)⟩
